import Mathlib

/-!
Verification of the Decaf scanner/parser core (`my_parser.py`).

The lexer is embedded as a priority-ordered matcher `scanOne` over `List Char`,
mirroring the Python regex alternation in `Lexer.token_specification` together
with `re.finditer` semantics (contiguous matches, first alternative wins,
greedy character classes).  The parser methods of class `Parser` are embedded
as fuel-indexed functions threading the token list and a cursor, with Python
runtime exceptions (AttributeError on `None.type` / `None.value`, TypeError on
`str + None`) modelled as `Except` errors.
-/

namespace Decaf

/-- `Token` mirrors the Python `Token` class (type, value, line, start_col, end_col). -/
structure Token where
  type : String
  value : String
  line : Nat
  start_col : Nat
  end_col : Nat
deriving Repr, DecidableEq

/-- The `RuntimeError` raised by `Lexer.tokenize` on a MISMATCH: it names the
offending character and the current 1-based line. -/
structure LexError where
  char : Char
  line : Nat
deriving Repr, DecidableEq

/-- `\w` over the ASCII range used by the grammar: letters, digits, underscore. -/
def isWordChar (c : Char) : Bool := c.isAlpha || c.isDigit || c == '_'

/-- Horizontal whitespace, the `[ \t]+` class. -/
def isHWS (c : Char) : Bool := c == ' ' || c == '\t'

/-- The fifteen single-character operator/punctuation alternatives of
`token_specification`. -/
def singleOpChar (c : Char) : Bool :=
  c == '=' || c == '<' || c == '>' || c == '+' || c == '-' || c == '*' || c == '/' ||
    c == '%' || c == '!' || c == ';' || c == ',' || c == '(' || c == ')' ||
    c == '\x7b' || c == '\x7d'

/-- Characters that always scan without a `MISMATCH` wherever they appear:
word characters, horizontal whitespace, newline, and the single-character
operators/punctuation.  Excluded are `&`, `|` and `"` (which scan only in the
pairs `&&`, `||` or a closed string literal) and every character outside the
token alphabet. -/
def safeChar (c : Char) : Bool :=
  isWordChar c || isHWS c || c == '\n' || singleOpChar c

/-- The three characters that occur in multi-character patterns only: a lone
occurrence outside those patterns is a `MISMATCH`. -/
def riskyChar (c : Char) : Bool := c == '&' || c == '|' || c == '\"'

/-- The `\b` condition on the left of a keyword: start of input or a
non-word previous character. -/
def boundaryBefore (prev : Option Char) : Bool :=
  match prev with
  | none => true
  | some c => !isWordChar c

/-- The `\b` condition on the right of a keyword occupying the first `n`
characters: end of input or a non-word next character. -/
def boundaryAfter (s : List Char) (n : Nat) : Bool :=
  match (s.drop n).head? with
  | none => true
  | some c => !isWordChar c

/-- Whether the keyword pattern `\bkw\b` matches at the start of `s`
(with `prev` the character just before `s` in the original input). -/
def kwMatch (prev : Option Char) (s : List Char) (kw : List Char) : Bool :=
  boundaryBefore prev && s.take kw.length == kw && boundaryAfter s kw.length

def voidChars : List Char := ['v', 'o', 'i', 'd']
def intChars : List Char := ['i', 'n', 't']
def boolChars : List Char := ['b', 'o', 'o', 'l']
def ifChars : List Char := ['i', 'f']
def forChars : List Char := ['f', 'o', 'r']
def returnChars : List Char := ['r', 'e', 't', 'u', 'r', 'n']
def printChars : List Char := ['P', 'r', 'i', 'n', 't']

/-- The keyword alternatives of `token_specification`, tried in order. -/
def findKeyword (prev : Option Char) (s : List Char) : Option (String × Nat) :=
  if kwMatch prev s voidChars then some ("T_Void", 4)
  else if kwMatch prev s intChars then some ("T_Int", 3)
  else if kwMatch prev s boolChars then some ("T_Bool", 4)
  else if kwMatch prev s ifChars then some ("T_If", 2)
  else if kwMatch prev s forChars then some ("T_For", 3)
  else if kwMatch prev s returnChars then some ("T_Return", 6)
  else if kwMatch prev s printChars then some ("T_Print", 5)
  else none

/-- One step of the combined regex at a (necessarily nonempty) position
holding character `c` followed by `rest`: returns the kind name and the length
of the match, trying the alternatives of `token_specification` in their fixed
priority order.  `prev` is the character preceding the position (for `\b`).
Since `NEWLINE` matches `\n` and `MISMATCH` matches any other character,
every nonempty position matches. -/
def scanOne (prev : Option Char) (c : Char) (rest : List Char) : String × Nat :=
  (findKeyword prev (c :: rest)).getD <|
    if (c :: rest).take 2 == ['<', '='] || (c :: rest).take 2 == ['>', '='] ||
       (c :: rest).take 2 == ['=', '='] || (c :: rest).take 2 == ['!', '='] then
      ("T_LessEqual", 2)
    else if c == '=' then ("T_Assign", 1)
    else if c == '<' then ("T_Less", 1)
    else if c == '>' then ("T_Greater", 1)
    else if c == '+' then ("T_Add", 1)
    else if c == '-' then ("T_Sub", 1)
    else if c == '*' then ("T_Mul", 1)
    else if c == '/' then ("T_Div", 1)
    else if c == '%' then ("T_Mod", 1)
    else if (c :: rest).take 2 == ['&', '&'] then ("T_And", 2)
    else if (c :: rest).take 2 == ['|', '|'] then ("T_Or", 2)
    else if c == '!' then ("T_Not", 1)
    else if c == ';' then ("T_Semicolon", 1)
    else if c == ',' then ("T_Comma", 1)
    else if c == '(' then ("T_LParen", 1)
    else if c == ')' then ("T_RParen", 1)
    else if c == '\x7b' then ("T_LBrace", 1)
    else if c == '\x7d' then ("T_RBrace", 1)
    else if c.isDigit then ("T_IntConstant", ((c :: rest).takeWhile Char.isDigit).length)
    else if c == '\"' && !(rest.dropWhile (fun d => d != '\"')).isEmpty then
      ("T_StringConstant", 2 + (rest.takeWhile (fun d => d != '\"')).length)
    else if c.isAlpha || c == '_' then
      ("T_Identifier", ((c :: rest).takeWhile isWordChar).length)
    else if isHWS c then ("WHITESPACE", ((c :: rest).takeWhile isHWS).length)
    else if c == '\n' then ("NEWLINE", 1)
    else ("MISMATCH", 1)

/-- The scan loop of `Lexer.tokenize`, paired with each token's absolute start
offset.  `pos` is the absolute offset of `s`'s head in the original input,
`line` the current 1-based line, `curPos` the offset just past the most recent
newline (Python's `current_position`).  Fuel is an upper bound on the number of
matches; `tokenizeFull` supplies the input length, which always suffices since
every match consumes at least one character. -/
def lexAux : Nat → Option Char → List Char → Nat → Nat → Nat →
    Except LexError (List (Token × Nat))
  | 0, _, _, _, _, _ => .ok []
  | fuel + 1, prev, s, pos, line, curPos =>
    match s with
    | [] => .ok []
    | c :: cs =>
      let kind := (scanOne prev c cs).1
      let n := (scanOne prev c cs).2
      let tok := (c :: cs).take n
      let rest := (c :: cs).drop n
      let prev' := tok.getLast?
      if kind = "NEWLINE" then
        lexAux fuel prev' rest (pos + n) (line + 1) (pos + n)
      else if kind = "WHITESPACE" then
        lexAux fuel prev' rest (pos + n) line curPos
      else if kind = "MISMATCH" then
        .error ⟨c, line⟩
      else
        (lexAux fuel prev' rest (pos + n) line curPos).map
          (fun ts => (⟨kind, ⟨tok⟩, line, pos - curPos + 1, pos + n - curPos⟩, pos) :: ts)

/-- `Lexer.tokenize`, additionally recording each token's absolute start offset. -/
def tokenizeFull (s : List Char) : Except LexError (List (Token × Nat)) :=
  lexAux s.length none s 0 1 0

/-- `Lexer.tokenize`: the token list as produced by the Python code. -/
def tokenize (s : List Char) : Except LexError (List Token) :=
  (tokenizeFull s).map (List.map Prod.fst)

/-- Convenience wrapper taking the source as a `String`. -/
def tokenizeStr (s : String) : Except LexError (List Token) :=
  tokenize s.data

/-- Errors of the embedded parser.  `attrError` models Python's
`AttributeError` (reading `.type`/`.value` on `None`), `typeError` models
`TypeError` (`str + None`), and `fuel` marks exhausted fuel, i.e. a run longer
than the supplied bound (the Python code can loop forever, e.g. the parameter
loop of `parse_function` on an unexpected token). -/
inductive PErr where
  | attrError : PErr
  | typeError : PErr
  | fuel : PErr
deriving Repr, DecidableEq

/-- Python f-string rendering of a possibly absent value: `None` prints as
`"None"`. -/
def pyOpt : Option String → String
  | none => "None"
  | some s => s

/-- ASCII lower-casing of one character, as `str.lower()` acts on the token
type names (which are ASCII). -/
def lowerChar (c : Char) : Char :=
  if c.toNat ≥ 65 ∧ c.toNat ≤ 90 then Char.ofNat (c.toNat + 32) else c

/-- `str.lower()` on ASCII strings. -/
def pyLower (s : String) : String := ⟨s.data.map lowerChar⟩

/-- `Parser.parse_expression`: dispatches on the current token, returns the
rendered expression (or `none` for the fall-through `return None`) and the new
cursor.  `AttributeError` when the cursor is past the end (`token.type` on
`None`). -/
def parse_expression : Nat → List Token → Nat → Except PErr (Option String × Nat)
  | 0, _, _ => .error .fuel
  | f + 1, toks, pos =>
    match toks[pos]? with
    | none => .error .attrError
    | some token =>
      if token.type = "T_IntConstant" ∨ token.type = "T_Identifier" then
        .ok (some ("FieldAccess: " ++ token.value), pos + 1)
      else if token.type = "T_Add" ∨ token.type = "T_Sub" then do
        let (left, p1) ← parse_expression f toks (pos + 1)
        let (right, p2) ← parse_expression f toks p1
        .ok (some ("ArithmeticExpr: " ++ token.value ++ "\n            " ++ pyOpt left ++
          "\n            " ++ pyOpt right), p2)
      else if token.type = "T_And" ∨ token.type = "T_Or" then do
        let (left, p1) ← parse_expression f toks (pos + 1)
        let (right, p2) ← parse_expression f toks p1
        .ok (some ("LogicalExpr: " ++ token.value ++ "\n            " ++ pyOpt left ++
          "\n            " ++ pyOpt right), p2)
      else if token.type = "T_LessEqual" ∨ token.type = "T_Equal" then do
        let (left, p1) ← parse_expression f toks (pos + 1)
        let (right, p2) ← parse_expression f toks p1
        .ok (some ("RelationalExpr: " ++ token.value ++ "\n            " ++ pyOpt left ++
          "\n            " ++ pyOpt right), p2)
      else if token.type = "T_Not" then do
        let (expr, p1) ← parse_expression f toks (pos + 1)
        .ok (some ("LogicalExpr: !\n            " ++ pyOpt expr), p1)
      else
        .ok (none, pos)

/-- Rendering of `parse_if_else`'s f-string. -/
def renderIfElse (condition block elseBlock : String) : String :=
  "\n        IfElse:\n            " ++ condition ++ "\n            Block:\n" ++ block ++
    "\n            Block:\n" ++ elseBlock

mutual

/-- `Parser.parse_declaration_or_function`: consumes the type keyword and the
identifier, then dispatches on the next token; the fall-through path (neither
`(` nor `;`) returns `none` (Python `None`) with the cursor after the
identifier. -/
def parse_declaration_or_function : Nat → List Token → Nat →
    Except PErr (Option String × Nat)
  | 0, _, _ => .error .fuel
  | f + 1, toks, pos =>
    match toks[pos]? with
    | none => .error .attrError
    | some token =>
      if token.type = "T_Int" ∨ token.type = "T_Void" then
        match toks[pos + 2]? with
        | none => .error .attrError
        | some t2 =>
          if t2.type = "T_LParen" then
            match toks[pos + 1]? with
            | none => .error .attrError
            | some idt => do
              let (s, p) ← parse_function f toks (pos + 2) idt.value
              .ok (some s, p)
          else if t2.type = "T_Semicolon" then
            match toks[pos + 1]? with
            | none => .error .attrError
            | some idt => .ok (some ("\n    Declaration: " ++ idt.value), pos + 3)
          else
            .ok (none, pos + 2)
      else
        .ok (none, pos)
termination_by structural f _ _ => f

/-- The parameter loop of `Parser.parse_function` (`while current() and
current().type != T_RParen`).  A token that is neither `int`/`bool` nor `)`
leaves the cursor unmoved, which in Python loops forever; fuel exhaustion
models that. -/
def parse_function_params : Nat → List Token → Nat → String →
    Except PErr (String × Nat)
  | 0, _, _, _ => .error .fuel
  | f + 1, toks, pos, acc =>
    match toks[pos]? with
    | none => .ok (acc, pos)
    | some t =>
      if t.type = "T_RParen" then .ok (acc, pos)
      else if t.type = "T_Int" ∨ t.type = "T_Bool" then
        match toks[pos + 1]? with
        | none => .error .attrError
        | some pname =>
          let acc' := acc ++ "\n        Parameter: t_" ++ pyLower t.type ++ " " ++ pname.value
          match toks[pos + 2]? with
          | none => .error .attrError
          | some c =>
            if c.type = "T_Comma" then parse_function_params f toks (pos + 3) acc'
            else parse_function_params f toks (pos + 2) acc'
      else parse_function_params f toks pos acc
termination_by structural f _ _ _ => f

/-- `Parser.parse_function`: called with the cursor on `(`; parses the
parameter list, consumes `)`, and parses an optional `{`-block. -/
def parse_function : Nat → List Token → Nat → String → Except PErr (String × Nat)
  | 0, _, _, _ => .error .fuel
  | f + 1, toks, pos, name => do
    let (params, p1) ← parse_function_params f toks (pos + 1) ""
    let p2 := p1 + 1
    match toks[p2]? with
    | some t =>
      if t.type = "T_LBrace" then do
        let (block, p3) ← parse_block f toks p2
        .ok ("\n    Function: " ++ name ++ params ++ block, p3)
      else .ok ("\n    Function: " ++ name ++ params, p2)
    | none => .ok ("\n    Function: " ++ name ++ params, p2)
termination_by structural f _ _ _ => f

/-- The statement loop of `Parser.parse_block`; after each dispatch the cursor
is advanced once more unconditionally (source line `self.consume()` at the end
of the loop body). -/
def parse_block_items : Nat → List Token → Nat → String → Except PErr (String × Nat)
  | 0, _, _, _ => .error .fuel
  | f + 1, toks, pos, acc =>
    match toks[pos]? with
    | none => .ok (acc, pos)
    | some t =>
      if t.type = "T_RBrace" then .ok (acc, pos)
      else do
        let (acc', p) ←
          if t.type = "T_Int" ∨ t.type = "T_Void" then do
            let (r, p) ← parse_declaration_or_function f toks pos
            match r with
            | some s => Except.ok (acc ++ s, p)
            | none => Except.error PErr.typeError
          else if t.type = "T_If" then do
            let (s, p) ← parse_if_else f toks pos
            Except.ok (acc ++ s, p)
          else if t.type = "T_Return" then do
            let (s, p) ← parse_return f toks pos
            Except.ok (acc ++ s, p)
          else if t.type = "T_Print" then do
            let (s, p) ← parse_print f toks pos
            Except.ok (acc ++ s, p)
          else if t.type = "T_Identifier" then do
            let (r, p) ← parse_expression_statement f toks pos
            match r with
            | some s => Except.ok (acc ++ s, p)
            | none => Except.error PErr.typeError
          else Except.ok (acc, pos)
        parse_block_items f toks (p + 1) acc'
termination_by structural f _ _ _ => f

/-- `Parser.parse_block`: consumes `{` unconditionally, runs the statement
loop, then consumes `}` (or one position past the end) unconditionally. -/
def parse_block : Nat → List Token → Nat → Except PErr (String × Nat)
  | 0, _, _ => .error .fuel
  | f + 1, toks, pos => do
    let (b, p) ← parse_block_items f toks (pos + 1) ""
    .ok (b, p + 1)
termination_by structural f _ _ => f

/-- `Parser.parse_if_else`: consumes `if`, parses the condition and the then
block; the else block is parsed only when the current token has type
`T_Else`. -/
def parse_if_else : Nat → List Token → Nat → Except PErr (String × Nat)
  | 0, _, _ => .error .fuel
  | f + 1, toks, pos => do
    let (condition, p1) ← parse_expression f toks (pos + 1)
    let (block, p2) ← parse_block f toks p1
    match toks[p2]? with
    | some t =>
      if t.type = "T_Else" then do
        let (elseBlock, p3) ← parse_block f toks (p2 + 1)
        .ok (renderIfElse (pyOpt condition) block elseBlock, p3)
      else .ok (renderIfElse (pyOpt condition) block "", p2)
    | none => .ok (renderIfElse (pyOpt condition) block "", p2)
termination_by structural f _ _ => f

/-- `Parser.parse_return`. -/
def parse_return : Nat → List Token → Nat → Except PErr (String × Nat)
  | 0, _, _ => .error .fuel
  | f + 1, toks, pos => do
    let (e, p) ← parse_expression f toks (pos + 1)
    .ok ("\n        Return:\n            " ++ pyOpt e, p)

/-- `Parser.parse_print`. -/
def parse_print : Nat → List Token → Nat → Except PErr (String × Nat)
  | 0, _, _ => .error .fuel
  | f + 1, toks, pos => do
    let (e, p) ← parse_expression f toks (pos + 1)
    .ok ("\n        Print:\n            " ++ pyOpt e, p)

/-- `Parser.parse_expression_statement`: when no `=` follows, the left
expression (possibly Python `None`) is returned as-is. -/
def parse_expression_statement : Nat → List Token → Nat →
    Except PErr (Option String × Nat)
  | 0, _, _ => .error .fuel
  | f + 1, toks, pos => do
    let (left, p) ← parse_expression f toks pos
    match toks[p]? with
    | none => .error .attrError
    | some t =>
      if t.type = "T_Assign" then do
        let (right, p2) ← parse_expression f toks (p + 1)
        .ok (some ("\n        ExpressionStatement:\n            AssignExpr: =\n                " ++
          pyOpt left ++ "\n                " ++ pyOpt right), p2)
      else .ok (left, p)

end

/-- The top-level loop of `Parser.parse`: skips any token that is not
`int`/`void`, otherwise appends the result of
`parse_declaration_or_function` to the accumulator; appending the absent
result (Python `None`) raises `TypeError`. -/
def parse_loop : Nat → List Token → Nat → String → Except PErr String
  | 0, _, _, _ => .error .fuel
  | f + 1, toks, pos, acc =>
    match toks[pos]? with
    | none => .ok acc
    | some t =>
      if t.type = "T_Int" ∨ t.type = "T_Void" then do
        let (r, p) ← parse_declaration_or_function f toks pos
        match r with
        | some s => parse_loop f toks p (acc ++ s)
        | none => .error .typeError
      else parse_loop f toks (pos + 1) acc

/-- `Parser.parse` with a fuel bound. -/
def parse (fuel : Nat) (toks : List Token) : Except PErr String :=
  parse_loop fuel toks 0 "Program:"

/-- Errors of the whole pipeline (the shell's two `except` clauses). -/
inductive RunErr where
  | lex : LexError → RunErr
  | par : PErr → RunErr
deriving Repr, DecidableEq

/-- The whole pipeline `Lexer.tokenize` then `Parser.parse` on a source
string, with fuel 99 (ample for every input considered here). -/
def compileProgram (src : String) : Except RunErr String :=
  match tokenize src.data with
  | .error e => .error (.lex e)
  | .ok ts =>
    match parse 99 ts with
    | .error e => .error (.par e)
    | .ok s => .ok s

/-- Strict source-position order on tokens: lexicographic by line then start
column. -/
def lexLt (a b : Token) : Prop :=
  a.line < b.line ∨ (a.line = b.line ∧ a.start_col < b.start_col)

/-- The token types `parse_expression` dispatches on. -/
def exprDispatchTypes : List String :=
  ["T_IntConstant", "T_Identifier", "T_Add", "T_Sub", "T_And", "T_Or",
   "T_LessEqual", "T_Equal", "T_Not"]

theorem kwMatch_take {prev : Option Char} {s kw : List Char}
    (h : kwMatch prev s kw = true) : s.take kw.length = kw := by
  simp only [kwMatch, Bool.and_eq_true, beq_iff_eq] at h
  exact h.1.2

theorem findKeyword_spec {prev : Option Char} {s : List Char} {k : String} {n : Nat}
    (h : findKeyword prev s = some (k, n)) :
    1 ≤ n ∧ (∀ d ∈ s.take n, d.isAlpha = true) ∧
      k ∈ ["T_Void", "T_Int", "T_Bool", "T_If", "T_For", "T_Return", "T_Print"] := by
  simp only [findKeyword] at h
  repeat' split at h
  all_goals first
    | (simp only [Option.some.injEq, Prod.mk.injEq] at h
       obtain ⟨rfl, rfl⟩ := h
       rename_i hm
       have ht := kwMatch_take hm
       simp only [voidChars, intChars, boolChars, ifChars, forChars, returnChars, printChars,
         List.length_cons, List.length_nil] at ht
       refine ⟨by decide, ?_, by decide⟩
       intro d hd
       rw [ht] at hd
       fin_cases hd <;> decide)
    | exact absurd h (by simp)

theorem scanOne_cases (prev : Option Char) (c : Char) (rest : List Char) :
    (∃ r, findKeyword prev (c :: rest) = some r ∧ scanOne prev c rest = r) ∨
    ((((c :: rest).take 2 == ['<', '='] || (c :: rest).take 2 == ['>', '='] || (c :: rest).take 2 == ['=', '='] || (c :: rest).take 2 == ['!', '=']) = true ∧ scanOne prev c rest = ("T_LessEqual", 2)) ∨
    ((c == '=') = true ∧ scanOne prev c rest = ("T_Assign", 1)) ∨
    ((c == '<') = true ∧ scanOne prev c rest = ("T_Less", 1)) ∨
    ((c == '>') = true ∧ scanOne prev c rest = ("T_Greater", 1)) ∨
    ((c == '+') = true ∧ scanOne prev c rest = ("T_Add", 1)) ∨
    ((c == '-') = true ∧ scanOne prev c rest = ("T_Sub", 1)) ∨
    ((c == '*') = true ∧ scanOne prev c rest = ("T_Mul", 1)) ∨
    ((c == '/') = true ∧ scanOne prev c rest = ("T_Div", 1)) ∨
    ((c == '%') = true ∧ scanOne prev c rest = ("T_Mod", 1)) ∨
    (((c :: rest).take 2 == ['&', '&']) = true ∧ scanOne prev c rest = ("T_And", 2)) ∨
    (((c :: rest).take 2 == ['|', '|']) = true ∧ scanOne prev c rest = ("T_Or", 2)) ∨
    ((c == '!') = true ∧ scanOne prev c rest = ("T_Not", 1)) ∨
    ((c == ';') = true ∧ scanOne prev c rest = ("T_Semicolon", 1)) ∨
    ((c == ',') = true ∧ scanOne prev c rest = ("T_Comma", 1)) ∨
    ((c == '(') = true ∧ scanOne prev c rest = ("T_LParen", 1)) ∨
    ((c == ')') = true ∧ scanOne prev c rest = ("T_RParen", 1)) ∨
    ((c == '\x7b') = true ∧ scanOne prev c rest = ("T_LBrace", 1)) ∨
    ((c == '\x7d') = true ∧ scanOne prev c rest = ("T_RBrace", 1)) ∨
    (c.isDigit = true ∧ scanOne prev c rest = ("T_IntConstant", ((c :: rest).takeWhile Char.isDigit).length)) ∨
    ((c == '\"' && !(rest.dropWhile (fun d => d != '\"')).isEmpty) = true ∧ scanOne prev c rest = ("T_StringConstant", 2 + (rest.takeWhile (fun d => d != '\"')).length)) ∨
    ((c.isAlpha || c == '_') = true ∧ scanOne prev c rest = ("T_Identifier", ((c :: rest).takeWhile isWordChar).length)) ∨
    (isHWS c = true ∧ scanOne prev c rest = ("WHITESPACE", ((c :: rest).takeWhile isHWS).length)) ∨
    ((c == '\n') = true ∧ scanOne prev c rest = ("NEWLINE", 1)) ∨
    ((((c :: rest).take 2 == ['<', '='] || (c :: rest).take 2 == ['>', '='] || (c :: rest).take 2 == ['=', '='] || (c :: rest).take 2 == ['!', '=']) = false) ∧ ((c == '=') = false) ∧ ((c == '<') = false) ∧ ((c == '>') = false) ∧ ((c == '+') = false) ∧ ((c == '-') = false) ∧ ((c == '*') = false) ∧ ((c == '/') = false) ∧ ((c == '%') = false) ∧ (((c :: rest).take 2 == ['&', '&']) = false) ∧ (((c :: rest).take 2 == ['|', '|']) = false) ∧ ((c == '!') = false) ∧ ((c == ';') = false) ∧ ((c == ',') = false) ∧ ((c == '(') = false) ∧ ((c == ')') = false) ∧ ((c == '\x7b') = false) ∧ ((c == '\x7d') = false) ∧ (c.isDigit = false) ∧ ((c == '\"' && !(rest.dropWhile (fun d => d != '\"')).isEmpty) = false) ∧ ((c.isAlpha || c == '_') = false) ∧ (isHWS c = false) ∧ ((c == '\n') = false) ∧ scanOne prev c rest = ("MISMATCH", 1))) := by
  cases hfk : findKeyword prev (c :: rest) with
  | some r => exact Or.inl ⟨r, rfl, by simp only [scanOne, hfk, Option.getD_some]⟩
  | none =>
    right
    by_cases h1 : ((c :: rest).take 2 == ['<', '='] || (c :: rest).take 2 == ['>', '='] || (c :: rest).take 2 == ['=', '='] || (c :: rest).take 2 == ['!', '=']) = true
    · exact Or.inl ⟨h1, by simp only [scanOne, hfk, Option.getD_none, h1, Bool.false_eq_true, if_false, if_true]⟩
    rw [Bool.not_eq_true] at h1
    by_cases h2 : (c == '=') = true
    · exact Or.inr (Or.inl ⟨h2, by simp only [scanOne, hfk, Option.getD_none, h1, h2, Bool.false_eq_true, if_false, if_true]⟩)
    rw [Bool.not_eq_true] at h2
    by_cases h3 : (c == '<') = true
    · exact Or.inr (Or.inr (Or.inl ⟨h3, by simp only [scanOne, hfk, Option.getD_none, h1, h2, h3, Bool.false_eq_true, if_false, if_true]⟩))
    rw [Bool.not_eq_true] at h3
    by_cases h4 : (c == '>') = true
    · exact Or.inr (Or.inr (Or.inr (Or.inl ⟨h4, by simp only [scanOne, hfk, Option.getD_none, h1, h2, h3, h4, Bool.false_eq_true, if_false, if_true]⟩)))
    rw [Bool.not_eq_true] at h4
    by_cases h5 : (c == '+') = true
    · exact Or.inr (Or.inr (Or.inr (Or.inr (Or.inl ⟨h5, by simp only [scanOne, hfk, Option.getD_none, h1, h2, h3, h4, h5, Bool.false_eq_true, if_false, if_true]⟩))))
    rw [Bool.not_eq_true] at h5
    by_cases h6 : (c == '-') = true
    · exact Or.inr (Or.inr (Or.inr (Or.inr (Or.inr (Or.inl ⟨h6, by simp only [scanOne, hfk, Option.getD_none, h1, h2, h3, h4, h5, h6, Bool.false_eq_true, if_false, if_true]⟩)))))
    rw [Bool.not_eq_true] at h6
    by_cases h7 : (c == '*') = true
    · exact Or.inr (Or.inr (Or.inr (Or.inr (Or.inr (Or.inr (Or.inl ⟨h7, by simp only [scanOne, hfk, Option.getD_none, h1, h2, h3, h4, h5, h6, h7, Bool.false_eq_true, if_false, if_true]⟩))))))
    rw [Bool.not_eq_true] at h7
    by_cases h8 : (c == '/') = true
    · exact Or.inr (Or.inr (Or.inr (Or.inr (Or.inr (Or.inr (Or.inr (Or.inl ⟨h8, by simp only [scanOne, hfk, Option.getD_none, h1, h2, h3, h4, h5, h6, h7, h8, Bool.false_eq_true, if_false, if_true]⟩)))))))
    rw [Bool.not_eq_true] at h8
    by_cases h9 : (c == '%') = true
    · exact Or.inr (Or.inr (Or.inr (Or.inr (Or.inr (Or.inr (Or.inr (Or.inr (Or.inl ⟨h9, by simp only [scanOne, hfk, Option.getD_none, h1, h2, h3, h4, h5, h6, h7, h8, h9, Bool.false_eq_true, if_false, if_true]⟩))))))))
    rw [Bool.not_eq_true] at h9
    by_cases h10 : ((c :: rest).take 2 == ['&', '&']) = true
    · exact Or.inr (Or.inr (Or.inr (Or.inr (Or.inr (Or.inr (Or.inr (Or.inr (Or.inr (Or.inl ⟨h10, by simp only [scanOne, hfk, Option.getD_none, h1, h2, h3, h4, h5, h6, h7, h8, h9, h10, Bool.false_eq_true, if_false, if_true]⟩)))))))))
    rw [Bool.not_eq_true] at h10
    by_cases h11 : ((c :: rest).take 2 == ['|', '|']) = true
    · exact Or.inr (Or.inr (Or.inr (Or.inr (Or.inr (Or.inr (Or.inr (Or.inr (Or.inr (Or.inr (Or.inl ⟨h11, by simp only [scanOne, hfk, Option.getD_none, h1, h2, h3, h4, h5, h6, h7, h8, h9, h10, h11, Bool.false_eq_true, if_false, if_true]⟩))))))))))
    rw [Bool.not_eq_true] at h11
    by_cases h12 : (c == '!') = true
    · exact Or.inr (Or.inr (Or.inr (Or.inr (Or.inr (Or.inr (Or.inr (Or.inr (Or.inr (Or.inr (Or.inr (Or.inl ⟨h12, by simp only [scanOne, hfk, Option.getD_none, h1, h2, h3, h4, h5, h6, h7, h8, h9, h10, h11, h12, Bool.false_eq_true, if_false, if_true]⟩)))))))))))
    rw [Bool.not_eq_true] at h12
    by_cases h13 : (c == ';') = true
    · exact Or.inr (Or.inr (Or.inr (Or.inr (Or.inr (Or.inr (Or.inr (Or.inr (Or.inr (Or.inr (Or.inr (Or.inr (Or.inl ⟨h13, by simp only [scanOne, hfk, Option.getD_none, h1, h2, h3, h4, h5, h6, h7, h8, h9, h10, h11, h12, h13, Bool.false_eq_true, if_false, if_true]⟩))))))))))))
    rw [Bool.not_eq_true] at h13
    by_cases h14 : (c == ',') = true
    · exact Or.inr (Or.inr (Or.inr (Or.inr (Or.inr (Or.inr (Or.inr (Or.inr (Or.inr (Or.inr (Or.inr (Or.inr (Or.inr (Or.inl ⟨h14, by simp only [scanOne, hfk, Option.getD_none, h1, h2, h3, h4, h5, h6, h7, h8, h9, h10, h11, h12, h13, h14, Bool.false_eq_true, if_false, if_true]⟩)))))))))))))
    rw [Bool.not_eq_true] at h14
    by_cases h15 : (c == '(') = true
    · exact Or.inr (Or.inr (Or.inr (Or.inr (Or.inr (Or.inr (Or.inr (Or.inr (Or.inr (Or.inr (Or.inr (Or.inr (Or.inr (Or.inr (Or.inl ⟨h15, by simp only [scanOne, hfk, Option.getD_none, h1, h2, h3, h4, h5, h6, h7, h8, h9, h10, h11, h12, h13, h14, h15, Bool.false_eq_true, if_false, if_true]⟩))))))))))))))
    rw [Bool.not_eq_true] at h15
    by_cases h16 : (c == ')') = true
    · exact Or.inr (Or.inr (Or.inr (Or.inr (Or.inr (Or.inr (Or.inr (Or.inr (Or.inr (Or.inr (Or.inr (Or.inr (Or.inr (Or.inr (Or.inr (Or.inl ⟨h16, by simp only [scanOne, hfk, Option.getD_none, h1, h2, h3, h4, h5, h6, h7, h8, h9, h10, h11, h12, h13, h14, h15, h16, Bool.false_eq_true, if_false, if_true]⟩)))))))))))))))
    rw [Bool.not_eq_true] at h16
    by_cases h17 : (c == '\x7b') = true
    · exact Or.inr (Or.inr (Or.inr (Or.inr (Or.inr (Or.inr (Or.inr (Or.inr (Or.inr (Or.inr (Or.inr (Or.inr (Or.inr (Or.inr (Or.inr (Or.inr (Or.inl ⟨h17, by simp only [scanOne, hfk, Option.getD_none, h1, h2, h3, h4, h5, h6, h7, h8, h9, h10, h11, h12, h13, h14, h15, h16, h17, Bool.false_eq_true, if_false, if_true]⟩))))))))))))))))
    rw [Bool.not_eq_true] at h17
    by_cases h18 : (c == '\x7d') = true
    · exact Or.inr (Or.inr (Or.inr (Or.inr (Or.inr (Or.inr (Or.inr (Or.inr (Or.inr (Or.inr (Or.inr (Or.inr (Or.inr (Or.inr (Or.inr (Or.inr (Or.inr (Or.inl ⟨h18, by simp only [scanOne, hfk, Option.getD_none, h1, h2, h3, h4, h5, h6, h7, h8, h9, h10, h11, h12, h13, h14, h15, h16, h17, h18, Bool.false_eq_true, if_false, if_true]⟩)))))))))))))))))
    rw [Bool.not_eq_true] at h18
    by_cases h19 : c.isDigit = true
    · exact Or.inr (Or.inr (Or.inr (Or.inr (Or.inr (Or.inr (Or.inr (Or.inr (Or.inr (Or.inr (Or.inr (Or.inr (Or.inr (Or.inr (Or.inr (Or.inr (Or.inr (Or.inr (Or.inl ⟨h19, by simp only [scanOne, hfk, Option.getD_none, h1, h2, h3, h4, h5, h6, h7, h8, h9, h10, h11, h12, h13, h14, h15, h16, h17, h18, h19, Bool.false_eq_true, if_false, if_true]⟩))))))))))))))))))
    rw [Bool.not_eq_true] at h19
    by_cases h20 : (c == '\"' && !(rest.dropWhile (fun d => d != '\"')).isEmpty) = true
    · exact Or.inr (Or.inr (Or.inr (Or.inr (Or.inr (Or.inr (Or.inr (Or.inr (Or.inr (Or.inr (Or.inr (Or.inr (Or.inr (Or.inr (Or.inr (Or.inr (Or.inr (Or.inr (Or.inr (Or.inl ⟨h20, by simp only [scanOne, hfk, Option.getD_none, h1, h2, h3, h4, h5, h6, h7, h8, h9, h10, h11, h12, h13, h14, h15, h16, h17, h18, h19, h20, Bool.false_eq_true, if_false, if_true]⟩)))))))))))))))))))
    rw [Bool.not_eq_true] at h20
    by_cases h21 : (c.isAlpha || c == '_') = true
    · exact Or.inr (Or.inr (Or.inr (Or.inr (Or.inr (Or.inr (Or.inr (Or.inr (Or.inr (Or.inr (Or.inr (Or.inr (Or.inr (Or.inr (Or.inr (Or.inr (Or.inr (Or.inr (Or.inr (Or.inr (Or.inl ⟨h21, by simp only [scanOne, hfk, Option.getD_none, h1, h2, h3, h4, h5, h6, h7, h8, h9, h10, h11, h12, h13, h14, h15, h16, h17, h18, h19, h20, h21, Bool.false_eq_true, if_false, if_true]⟩))))))))))))))))))))
    rw [Bool.not_eq_true] at h21
    by_cases h22 : isHWS c = true
    · exact Or.inr (Or.inr (Or.inr (Or.inr (Or.inr (Or.inr (Or.inr (Or.inr (Or.inr (Or.inr (Or.inr (Or.inr (Or.inr (Or.inr (Or.inr (Or.inr (Or.inr (Or.inr (Or.inr (Or.inr (Or.inr (Or.inl ⟨h22, by simp only [scanOne, hfk, Option.getD_none, h1, h2, h3, h4, h5, h6, h7, h8, h9, h10, h11, h12, h13, h14, h15, h16, h17, h18, h19, h20, h21, h22, Bool.false_eq_true, if_false, if_true]⟩)))))))))))))))))))))
    rw [Bool.not_eq_true] at h22
    by_cases h23 : (c == '\n') = true
    · exact Or.inr (Or.inr (Or.inr (Or.inr (Or.inr (Or.inr (Or.inr (Or.inr (Or.inr (Or.inr (Or.inr (Or.inr (Or.inr (Or.inr (Or.inr (Or.inr (Or.inr (Or.inr (Or.inr (Or.inr (Or.inr (Or.inr (Or.inl ⟨h23, by simp only [scanOne, hfk, Option.getD_none, h1, h2, h3, h4, h5, h6, h7, h8, h9, h10, h11, h12, h13, h14, h15, h16, h17, h18, h19, h20, h21, h22, h23, Bool.false_eq_true, if_false, if_true]⟩))))))))))))))))))))))
    rw [Bool.not_eq_true] at h23
    exact Or.inr (Or.inr (Or.inr (Or.inr (Or.inr (Or.inr (Or.inr (Or.inr (Or.inr (Or.inr (Or.inr (Or.inr (Or.inr (Or.inr (Or.inr (Or.inr (Or.inr (Or.inr (Or.inr (Or.inr (Or.inr (Or.inr (Or.inr (⟨h1, h2, h3, h4, h5, h6, h7, h8, h9, h10, h11, h12, h13, h14, h15, h16, h17, h18, h19, h20, h21, h22, h23, by simp only [scanOne, hfk, Option.getD_none, h1, h2, h3, h4, h5, h6, h7, h8, h9, h10, h11, h12, h13, h14, h15, h16, h17, h18, h19, h20, h21, h22, h23, Bool.false_eq_true, if_false]⟩)))))))))))))))))))))))

/-- Helper facts about character classes. -/
theorem word_of_ident {c : Char} (h : (c.isAlpha || c == '_') = true) :
    isWordChar c = true := by
  simp only [isWordChar, Bool.or_eq_true] at h ⊢
  tauto

theorem alpha_word {d : Char} (h : d.isAlpha = true) : isWordChar d = true := by
  simp [isWordChar, h]

theorem digit_word {d : Char} (h : d.isDigit = true) : isWordChar d = true := by
  simp [isWordChar, h]

theorem word_safe {d : Char} (h : isWordChar d = true) : safeChar d = true := by
  simp [safeChar, h]

theorem hws_safe {d : Char} (h : isHWS d = true) : safeChar d = true := by
  simp [safeChar, h]

theorem word_not_hws {d : Char} (h : isWordChar d = true) : isHWS d = false := by
  cases hh : isHWS d with
  | false => rfl
  | true =>
    simp only [isHWS, Bool.or_eq_true, beq_iff_eq] at hh
    rcases hh with rfl | rfl <;> exact absurd h (by decide)

theorem word_not_nl {d : Char} (h : isWordChar d = true) : d ≠ '\n' := by
  intro e
  subst e
  exact absurd h (by decide)

theorem hws_not_nl {d : Char} (h : isHWS d = true) : d ≠ '\n' := by
  intro e
  subst e
  exact absurd h (by decide)

theorem take_len_takeWhile (l : List Char) (p : Char → Bool) :
    l.take (l.takeWhile p).length = l.takeWhile p := by
  have hp := List.takeWhile_prefix (l := l) p
  rw [List.prefix_iff_eq_take] at hp
  exact hp.symm

theorem findKeyword_none {prev : Option Char} {c : Char} {rest : List Char}
    (h : c.isAlpha = false) : findKeyword prev (c :: rest) = none := by
  cases hv : findKeyword prev (c :: rest) with
  | none => rfl
  | some r =>
    obtain ⟨k, n⟩ := r
    obtain ⟨hn, ha, _⟩ := findKeyword_spec hv
    have hc : c ∈ (c :: rest).take n := by
      cases n with
      | zero => exact absurd hn (by decide)
      | succ m => simp [List.take_succ_cons]
    exact absurd (ha c hc) (by simp [h])

/-- Every match consumes at least one character. -/
theorem scanOne_pos {prev : Option Char} {c : Char} {rest : List Char} {kind : String}
    {n : Nat} (h : scanOne prev c rest = (kind, n)) : 1 ≤ n := by
  rcases scanOne_cases prev c rest with ⟨r, hfk, hv⟩ | ⟨hc, hv⟩ | ⟨hc, hv⟩ | ⟨hc, hv⟩ | ⟨hc, hv⟩ | ⟨hc, hv⟩ | ⟨hc, hv⟩ | ⟨hc, hv⟩ | ⟨hc, hv⟩ | ⟨hc, hv⟩ | ⟨hc, hv⟩ | ⟨hc, hv⟩ | ⟨hc, hv⟩ | ⟨hc, hv⟩ | ⟨hc, hv⟩ | ⟨hc, hv⟩ | ⟨hc, hv⟩ | ⟨hc, hv⟩ | ⟨hc, hv⟩ | ⟨hc, hv⟩ | ⟨hc, hv⟩ | ⟨hc, hv⟩ | ⟨hc, hv⟩ | ⟨hc, hv⟩ | ⟨hm1, hm2, hm3, hm4, hm5, hm6, hm7, hm8, hm9, hm10, hm11, hm12, hm13, hm14, hm15, hm16, hm17, hm18, hm19, hm20, hm21, hm22, hm23, hv⟩
  · rw [h] at hv
    subst hv
    exact (findKeyword_spec hfk).1
  all_goals rw [h] at hv
  all_goals simp only [Prod.mk.injEq] at hv
  all_goals obtain ⟨rfl, rfl⟩ := hv
  all_goals try decide
  · rw [List.takeWhile_cons_of_pos hc, List.length_cons]
    omega
  · omega
  · rw [List.takeWhile_cons_of_pos (word_of_ident hc), List.length_cons]
    omega
  · rw [List.takeWhile_cons_of_pos hc, List.length_cons]
    omega

/-- The scanner never produces the kind name `T_Else`. -/
theorem scanOne_ne_else {prev : Option Char} {c : Char} {rest : List Char} {kind : String}
    {n : Nat} (h : scanOne prev c rest = (kind, n)) : kind ≠ "T_Else" := by
  rcases scanOne_cases prev c rest with ⟨r, hfk, hv⟩ | ⟨hc, hv⟩ | ⟨hc, hv⟩ | ⟨hc, hv⟩ | ⟨hc, hv⟩ | ⟨hc, hv⟩ | ⟨hc, hv⟩ | ⟨hc, hv⟩ | ⟨hc, hv⟩ | ⟨hc, hv⟩ | ⟨hc, hv⟩ | ⟨hc, hv⟩ | ⟨hc, hv⟩ | ⟨hc, hv⟩ | ⟨hc, hv⟩ | ⟨hc, hv⟩ | ⟨hc, hv⟩ | ⟨hc, hv⟩ | ⟨hc, hv⟩ | ⟨hc, hv⟩ | ⟨hc, hv⟩ | ⟨hc, hv⟩ | ⟨hc, hv⟩ | ⟨hc, hv⟩ | ⟨hm1, hm2, hm3, hm4, hm5, hm6, hm7, hm8, hm9, hm10, hm11, hm12, hm13, hm14, hm15, hm16, hm17, hm18, hm19, hm20, hm21, hm22, hm23, hv⟩
  · rw [h] at hv
    subst hv
    have hk := (findKeyword_spec hfk).2.2
    simp only [List.mem_cons, List.not_mem_nil, or_false] at hk
    rcases hk with rfl | rfl | rfl | rfl | rfl | rfl | rfl <;> decide
  all_goals rw [h] at hv
  all_goals simp only [Prod.mk.injEq] at hv
  all_goals obtain ⟨rfl, rfl⟩ := hv
  all_goals decide

/-- A `NEWLINE` match is exactly one newline character. -/
theorem scanOne_newline {prev : Option Char} {c : Char} {rest : List Char} {kind : String}
    {n : Nat} (h : scanOne prev c rest = (kind, n)) (he : kind = "NEWLINE") :
    n = 1 ∧ c = '\n' := by
  rcases scanOne_cases prev c rest with ⟨r, hfk, hv⟩ | ⟨hc, hv⟩ | ⟨hc, hv⟩ | ⟨hc, hv⟩ | ⟨hc, hv⟩ | ⟨hc, hv⟩ | ⟨hc, hv⟩ | ⟨hc, hv⟩ | ⟨hc, hv⟩ | ⟨hc, hv⟩ | ⟨hc, hv⟩ | ⟨hc, hv⟩ | ⟨hc, hv⟩ | ⟨hc, hv⟩ | ⟨hc, hv⟩ | ⟨hc, hv⟩ | ⟨hc, hv⟩ | ⟨hc, hv⟩ | ⟨hc, hv⟩ | ⟨hc, hv⟩ | ⟨hc, hv⟩ | ⟨hc, hv⟩ | ⟨hc, hv⟩ | ⟨hc, hv⟩ | ⟨hm1, hm2, hm3, hm4, hm5, hm6, hm7, hm8, hm9, hm10, hm11, hm12, hm13, hm14, hm15, hm16, hm17, hm18, hm19, hm20, hm21, hm22, hm23, hv⟩
  · rw [h] at hv
    subst hv
    subst he
    exact absurd (findKeyword_spec hfk).2.2 (by decide)
  all_goals rw [h] at hv
  all_goals simp only [Prod.mk.injEq] at hv
  all_goals obtain ⟨rfl, rfl⟩ := hv
  all_goals try exact absurd he (by decide)
  exact ⟨rfl, by simpa using hc⟩

/-- A string-constant match starts at a double quote. -/
theorem scanOne_string {prev : Option Char} {c : Char} {rest : List Char} {kind : String}
    {n : Nat} (h : scanOne prev c rest = (kind, n)) (he : kind = "T_StringConstant") :
    c = '\"' := by
  rcases scanOne_cases prev c rest with ⟨r, hfk, hv⟩ | ⟨hc, hv⟩ | ⟨hc, hv⟩ | ⟨hc, hv⟩ | ⟨hc, hv⟩ | ⟨hc, hv⟩ | ⟨hc, hv⟩ | ⟨hc, hv⟩ | ⟨hc, hv⟩ | ⟨hc, hv⟩ | ⟨hc, hv⟩ | ⟨hc, hv⟩ | ⟨hc, hv⟩ | ⟨hc, hv⟩ | ⟨hc, hv⟩ | ⟨hc, hv⟩ | ⟨hc, hv⟩ | ⟨hc, hv⟩ | ⟨hc, hv⟩ | ⟨hc, hv⟩ | ⟨hc, hv⟩ | ⟨hc, hv⟩ | ⟨hc, hv⟩ | ⟨hc, hv⟩ | ⟨hm1, hm2, hm3, hm4, hm5, hm6, hm7, hm8, hm9, hm10, hm11, hm12, hm13, hm14, hm15, hm16, hm17, hm18, hm19, hm20, hm21, hm22, hm23, hv⟩
  · rw [h] at hv
    subst hv
    subst he
    exact absurd (findKeyword_spec hfk).2.2 (by decide)
  all_goals rw [h] at hv
  all_goals simp only [Prod.mk.injEq] at hv
  all_goals obtain ⟨rfl, rfl⟩ := hv
  all_goals try exact absurd he (by decide)
  simp only [Bool.and_eq_true, beq_iff_eq] at hc
  exact hc.1

/-- A `WHITESPACE` match consists of spaces and tabs only. -/
theorem scanOne_ws {prev : Option Char} {c : Char} {rest : List Char} {kind : String}
    {n : Nat} (h : scanOne prev c rest = (kind, n)) (he : kind = "WHITESPACE") :
    ∀ d ∈ (c :: rest).take n, isHWS d = true := by
  rcases scanOne_cases prev c rest with ⟨r, hfk, hv⟩ | ⟨hc, hv⟩ | ⟨hc, hv⟩ | ⟨hc, hv⟩ | ⟨hc, hv⟩ | ⟨hc, hv⟩ | ⟨hc, hv⟩ | ⟨hc, hv⟩ | ⟨hc, hv⟩ | ⟨hc, hv⟩ | ⟨hc, hv⟩ | ⟨hc, hv⟩ | ⟨hc, hv⟩ | ⟨hc, hv⟩ | ⟨hc, hv⟩ | ⟨hc, hv⟩ | ⟨hc, hv⟩ | ⟨hc, hv⟩ | ⟨hc, hv⟩ | ⟨hc, hv⟩ | ⟨hc, hv⟩ | ⟨hc, hv⟩ | ⟨hc, hv⟩ | ⟨hc, hv⟩ | ⟨hm1, hm2, hm3, hm4, hm5, hm6, hm7, hm8, hm9, hm10, hm11, hm12, hm13, hm14, hm15, hm16, hm17, hm18, hm19, hm20, hm21, hm22, hm23, hv⟩
  · rw [h] at hv
    subst hv
    subst he
    exact absurd (findKeyword_spec hfk).2.2 (by decide)
  all_goals rw [h] at hv
  all_goals simp only [Prod.mk.injEq] at hv
  all_goals obtain ⟨rfl, rfl⟩ := hv
  all_goals try exact absurd he (by decide)
  intro d hd
  rw [take_len_takeWhile] at hd
  exact List.mem_takeWhile_imp (p := isHWS) hd

/-- Outside `NEWLINE` and string-constant matches, no matched character is a
newline. -/
theorem scanOne_no_nl {prev : Option Char} {c : Char} {rest : List Char} {kind : String}
    {n : Nat} (h : scanOne prev c rest = (kind, n)) (he1 : kind ≠ "NEWLINE")
    (he2 : kind ≠ "T_StringConstant") : ∀ d ∈ (c :: rest).take n, d ≠ '\n' := by
  rcases scanOne_cases prev c rest with ⟨r, hfk, hv⟩ | ⟨hc, hv⟩ | ⟨hc, hv⟩ | ⟨hc, hv⟩ | ⟨hc, hv⟩ | ⟨hc, hv⟩ | ⟨hc, hv⟩ | ⟨hc, hv⟩ | ⟨hc, hv⟩ | ⟨hc, hv⟩ | ⟨hc, hv⟩ | ⟨hc, hv⟩ | ⟨hc, hv⟩ | ⟨hc, hv⟩ | ⟨hc, hv⟩ | ⟨hc, hv⟩ | ⟨hc, hv⟩ | ⟨hc, hv⟩ | ⟨hc, hv⟩ | ⟨hc, hv⟩ | ⟨hc, hv⟩ | ⟨hc, hv⟩ | ⟨hc, hv⟩ | ⟨hc, hv⟩ | ⟨hm1, hm2, hm3, hm4, hm5, hm6, hm7, hm8, hm9, hm10, hm11, hm12, hm13, hm14, hm15, hm16, hm17, hm18, hm19, hm20, hm21, hm22, hm23, hv⟩
  · rw [h] at hv
    subst hv
    intro d hd
    exact word_not_nl (alpha_word ((findKeyword_spec hfk).2.1 d hd))
  all_goals rw [h] at hv
  all_goals simp only [Prod.mk.injEq] at hv
  all_goals obtain ⟨rfl, rfl⟩ := hv
  all_goals first
    | exact absurd rfl he1
    | exact absurd rfl he2
    | (intro d hd
       simp only [beq_iff_eq] at hc
       subst hc
       simp only [List.take_succ_cons, List.take_zero, List.mem_singleton] at hd
       subst hd
       decide)
    | (intro d hd
       simp only [beq_iff_eq] at hc
       rw [hc] at hd
       fin_cases hd <;> decide)
    | (intro d hd
       simp only [Bool.or_eq_true, beq_iff_eq] at hc
       rcases hc with ((hc | hc) | hc) | hc <;> (rw [hc] at hd; fin_cases hd <;> decide))
    | (intro d hd
       rw [take_len_takeWhile] at hd
       exact word_not_nl (digit_word (List.mem_takeWhile_imp (p := Char.isDigit) hd)))
    | (intro d hd
       rw [take_len_takeWhile] at hd
       first
       | exact word_not_nl (List.mem_takeWhile_imp (p := isWordChar) hd)
       | exact hws_not_nl (List.mem_takeWhile_imp (p := isHWS) hd))
    | (intro d hd
       simp only [List.take_succ_cons, List.take_zero, List.mem_singleton] at hd
       subst hd
       exact beq_eq_false_iff_ne.mp hm23)

/-- Outside `WHITESPACE` and string-constant matches, no matched character is
horizontal whitespace. -/
theorem scanOne_no_hws {prev : Option Char} {c : Char} {rest : List Char} {kind : String}
    {n : Nat} (h : scanOne prev c rest = (kind, n)) (he1 : kind ≠ "WHITESPACE")
    (he2 : kind ≠ "T_StringConstant") : ∀ d ∈ (c :: rest).take n, isHWS d = false := by
  rcases scanOne_cases prev c rest with ⟨r, hfk, hv⟩ | ⟨hc, hv⟩ | ⟨hc, hv⟩ | ⟨hc, hv⟩ | ⟨hc, hv⟩ | ⟨hc, hv⟩ | ⟨hc, hv⟩ | ⟨hc, hv⟩ | ⟨hc, hv⟩ | ⟨hc, hv⟩ | ⟨hc, hv⟩ | ⟨hc, hv⟩ | ⟨hc, hv⟩ | ⟨hc, hv⟩ | ⟨hc, hv⟩ | ⟨hc, hv⟩ | ⟨hc, hv⟩ | ⟨hc, hv⟩ | ⟨hc, hv⟩ | ⟨hc, hv⟩ | ⟨hc, hv⟩ | ⟨hc, hv⟩ | ⟨hc, hv⟩ | ⟨hc, hv⟩ | ⟨hm1, hm2, hm3, hm4, hm5, hm6, hm7, hm8, hm9, hm10, hm11, hm12, hm13, hm14, hm15, hm16, hm17, hm18, hm19, hm20, hm21, hm22, hm23, hv⟩
  · rw [h] at hv
    subst hv
    intro d hd
    exact word_not_hws (alpha_word ((findKeyword_spec hfk).2.1 d hd))
  all_goals rw [h] at hv
  all_goals simp only [Prod.mk.injEq] at hv
  all_goals obtain ⟨rfl, rfl⟩ := hv
  all_goals first
    | exact absurd rfl he1
    | exact absurd rfl he2
    | (intro d hd
       simp only [beq_iff_eq] at hc
       subst hc
       simp only [List.take_succ_cons, List.take_zero, List.mem_singleton] at hd
       subst hd
       decide)
    | (intro d hd
       simp only [beq_iff_eq] at hc
       rw [hc] at hd
       fin_cases hd <;> decide)
    | (intro d hd
       simp only [Bool.or_eq_true, beq_iff_eq] at hc
       rcases hc with ((hc | hc) | hc) | hc <;> (rw [hc] at hd; fin_cases hd <;> decide))
    | (intro d hd
       rw [take_len_takeWhile] at hd
       exact word_not_hws (digit_word (List.mem_takeWhile_imp (p := Char.isDigit) hd)))
    | (intro d hd
       rw [take_len_takeWhile] at hd
       exact word_not_hws (List.mem_takeWhile_imp (p := isWordChar) hd))
    | (intro d hd
       simp only [List.take_succ_cons, List.take_zero, List.mem_singleton] at hd
       subst hd
       first
       | exact hm22
       | (simp only [beq_iff_eq] at hc
          subst hc
          decide))

/-- With a safe head character no match is a `MISMATCH` or a string constant,
and every matched character is safe. -/
theorem scanOne_safe {prev : Option Char} {c : Char} {rest : List Char} {kind : String}
    {n : Nat} (h : scanOne prev c rest = (kind, n)) (hs : safeChar c = true) :
    kind ≠ "MISMATCH" ∧ kind ≠ "T_StringConstant" ∧
      ∀ d ∈ (c :: rest).take n, safeChar d = true := by
  rcases scanOne_cases prev c rest with ⟨r, hfk, hv⟩ | ⟨hc, hv⟩ | ⟨hc, hv⟩ | ⟨hc, hv⟩ | ⟨hc, hv⟩ | ⟨hc, hv⟩ | ⟨hc, hv⟩ | ⟨hc, hv⟩ | ⟨hc, hv⟩ | ⟨hc, hv⟩ | ⟨hc, hv⟩ | ⟨hc, hv⟩ | ⟨hc, hv⟩ | ⟨hc, hv⟩ | ⟨hc, hv⟩ | ⟨hc, hv⟩ | ⟨hc, hv⟩ | ⟨hc, hv⟩ | ⟨hc, hv⟩ | ⟨hc, hv⟩ | ⟨hc, hv⟩ | ⟨hc, hv⟩ | ⟨hc, hv⟩ | ⟨hc, hv⟩ | ⟨hm1, hm2, hm3, hm4, hm5, hm6, hm7, hm8, hm9, hm10, hm11, hm12, hm13, hm14, hm15, hm16, hm17, hm18, hm19, hm20, hm21, hm22, hm23, hv⟩
  · rw [h] at hv
    subst hv
    refine ⟨?_, ?_, ?_⟩
    · intro he
      subst he
      exact absurd (findKeyword_spec hfk).2.2 (by decide)
    · intro he
      subst he
      exact absurd (findKeyword_spec hfk).2.2 (by decide)
    · intro d hd
      exact word_safe (alpha_word ((findKeyword_spec hfk).2.1 d hd))
  all_goals rw [h] at hv
  all_goals simp only [Prod.mk.injEq] at hv
  all_goals obtain ⟨rfl, rfl⟩ := hv
  all_goals first
    | (simp only [Bool.and_eq_true, beq_iff_eq] at hc
       exact absurd hs (by rw [hc.1]; decide))
    | (simp only [beq_iff_eq, List.take_succ_cons, List.cons.injEq] at hc
       obtain ⟨rfl, -⟩ := hc
       exact absurd hs (by decide))
    | (exfalso
       simp only [Bool.or_eq_false_iff] at hm21
       obtain ⟨hma, hmu⟩ := hm21
       simp [safeChar, isWordChar, singleOpChar, hma, hmu, hm19, hm22, hm23, hm2, hm3, hm4,
         hm5, hm6, hm7, hm8, hm9, hm12, hm13, hm14, hm15, hm16, hm17, hm18] at hs)
    | (refine ⟨by decide, by decide, ?_⟩
       first
       | (intro d hd
          simp only [beq_iff_eq] at hc
          subst hc
          simp only [List.take_succ_cons, List.take_zero, List.mem_singleton] at hd
          subst hd
          decide)
       | (intro d hd
          simp only [Bool.or_eq_true, beq_iff_eq] at hc
          rcases hc with ((hc | hc) | hc) | hc <;> (rw [hc] at hd; fin_cases hd <;> decide))
       | (intro d hd
          rw [take_len_takeWhile] at hd
          exact word_safe (digit_word (List.mem_takeWhile_imp (p := Char.isDigit) hd)))
       | (intro d hd
          rw [take_len_takeWhile] at hd
          first
          | exact word_safe (List.mem_takeWhile_imp (p := isWordChar) hd)
          | exact hws_safe (List.mem_takeWhile_imp (p := isHWS) hd))
       | (intro d hd
          simp only [beq_iff_eq] at hc
          subst hc
          simp only [List.take_succ_cons, List.take_zero, List.mem_singleton] at hd
          subst hd
          decide))

/-- A head character that is neither safe nor risky scans as a one-character
`MISMATCH`. -/
theorem scanOne_bad {prev : Option Char} {c : Char} {rest : List Char}
    (hs : safeChar c = false) (hr : riskyChar c = false) :
    scanOne prev c rest = ("MISMATCH", 1) := by
  simp only [safeChar, isWordChar, singleOpChar, Bool.or_eq_false_iff] at hs
  obtain ⟨⟨⟨⟨⟨halpha, hdigit⟩, hus⟩, hhws⟩, hnl⟩, hop⟩ := hs
  obtain ⟨⟨⟨⟨⟨⟨⟨⟨⟨⟨⟨⟨⟨⟨heq, hlt⟩, hgt⟩, hplus⟩, hminus⟩, hstar⟩, hslash⟩, hperc⟩, hexcl⟩, hsemi⟩, hcomma⟩, hlp⟩, hrp⟩, hlb⟩, hrb⟩ := hop
  simp only [riskyChar, Bool.or_eq_false_iff] at hr
  obtain ⟨⟨hamp, hpipe⟩, hquote⟩ := hr
  have hfk : findKeyword prev (c :: rest) = none := findKeyword_none halpha
  have htk : ∀ (a b : Char), c ≠ a → ((c :: rest).take 2 == [a, b]) = false := by
    intro a b hab
    rw [beq_eq_false_iff_ne]
    intro he
    rw [List.take_succ_cons] at he
    injection he with he1 he2
    exact hab he1
  have hble1 := htk '<' '=' (beq_eq_false_iff_ne.mp hlt)
  have hble2 := htk '>' '=' (beq_eq_false_iff_ne.mp hgt)
  have hble3 := htk '=' '=' (beq_eq_false_iff_ne.mp heq)
  have hble4 := htk '!' '=' (beq_eq_false_iff_ne.mp hexcl)
  have hamp2 := htk '&' '&' (beq_eq_false_iff_ne.mp hamp)
  have hpipe2 := htk '|' '|' (beq_eq_false_iff_ne.mp hpipe)
  simp only [scanOne, hfk, Option.getD_none, hble1, hble2, hble3, hble4, hamp2, hpipe2,
    heq, hlt, hgt, hplus, hminus, hstar, hslash, hperc, hexcl, hsemi, hcomma, hlp, hrp, hlb, hrb, hdigit, hquote, halpha, hus, hhws, hnl, Bool.or_self, Bool.or_false,
    Bool.false_or, Bool.false_and, Bool.false_eq_true, if_false]

/-- On an all-safe input the scan succeeds, and the concatenated token texts
are exactly the input minus horizontal whitespace and newlines. -/
theorem lexAux_safe (fuel : Nat) :
    ∀ (prev : Option Char) (s : List Char) (pos line curPos : Nat),
    s.length ≤ fuel → (∀ d ∈ s, safeChar d = true) →
    ∃ tps, lexAux fuel prev s pos line curPos = .ok tps ∧
      ((tps.map (fun tp => tp.1.value.data)).flatten =
        s.filter (fun d => !(isHWS d || d == '\n'))) := by
  induction fuel with
  | zero =>
    intro prev s pos line curPos hlen hsafe
    rw [Nat.le_zero, List.length_eq_zero] at hlen
    subst hlen
    exact ⟨[], rfl, rfl⟩
  | succ f ih =>
    intro prev s pos line curPos hlen hsafe
    cases s with
    | nil => exact ⟨[], rfl, rfl⟩
    | cons c cs =>
      have hc : safeChar c = true := hsafe c (List.mem_cons_self c cs)
      rcases hsc : scanOne prev c cs with ⟨kind, n⟩
      have hpos := scanOne_pos hsc
      obtain ⟨hkm, hkstr, hchars⟩ := scanOne_safe hsc hc
      have hlen' : ((c :: cs).drop n).length ≤ f := by
        rw [List.length_drop]
        simp only [List.length_cons] at hlen ⊢
        omega
      have hsafe' : ∀ d ∈ (c :: cs).drop n, safeChar d = true :=
        fun d hd => hsafe d (List.drop_subset _ _ hd)
      simp only [lexAux, hsc]
      by_cases hk1 : kind = "NEWLINE"
      · rw [if_pos hk1]
        obtain ⟨hn1, hcn⟩ := scanOne_newline hsc hk1
        obtain ⟨ts, hts, hj⟩ := ih _ ((c :: cs).drop n) (pos + n) (line + 1) (pos + n)
          hlen' hsafe'
        refine ⟨ts, hts, ?_⟩
        rw [hj]
        subst hcn
        subst hn1
        simp only [List.drop_succ_cons, List.drop_zero]
        rw [List.filter_cons_of_neg (by decide)]
      · rw [if_neg hk1]
        by_cases hk2 : kind = "WHITESPACE"
        · rw [if_pos hk2]
          have hws := scanOne_ws hsc hk2
          obtain ⟨ts, hts, hj⟩ := ih _ ((c :: cs).drop n) (pos + n) line curPos
            hlen' hsafe'
          refine ⟨ts, hts, ?_⟩
          rw [hj]
          conv_rhs => rw [← List.take_append_drop n (c :: cs)]
          rw [List.filter_append]
          have hnil : ((c :: cs).take n).filter (fun d => !(isHWS d || d == '\n')) = [] := by
            rw [List.filter_eq_nil_iff]
            intro d hd
            simp [hws d hd]
          rw [hnil, List.nil_append]
        · rw [if_neg hk2]
          rw [if_neg (by simpa using hkm)]
          obtain ⟨ts, hts, hj⟩ := ih _ ((c :: cs).drop n) (pos + n) line curPos
            hlen' hsafe'
          rw [hts]
          refine ⟨_, rfl, ?_⟩
          have hnl := scanOne_no_nl hsc hk1 hkstr
          have hhw := scanOne_no_hws hsc hk2 hkstr
          simp only [List.map_cons, List.flatten_cons]
          have hself : ((c :: cs).take n).filter (fun d => !(isHWS d || d == '\n')) =
              (c :: cs).take n := by
            rw [List.filter_eq_self]
            intro d hd
            simp [hhw d hd, beq_eq_false_iff_ne.mpr (hnl d hd)]
          conv_rhs => rw [← List.take_append_drop n (c :: cs)]
          rw [List.filter_append, hself, hj]

/-- Membership of the separating element in a long-enough `take` over an
append. -/
theorem mem_take_append {l1 l2 : List Char} {x : Char} {n : Nat}
    (h : l1.length < n) : x ∈ (l1 ++ x :: l2).take n := by
  rw [List.take_append_eq_append_take]
  refine List.mem_append_right _ ?_
  have h2 : 1 ≤ n - l1.length := by omega
  cases hk : n - l1.length with
  | zero => omega
  | succ m => simp [List.take_succ_cons]

/-- On an input whose prefix is all safe characters followed by a character
that is neither safe nor risky, the scan fails exactly at that character,
with the line number advanced by the newlines of the prefix. -/
theorem lexAux_bad (fuel : Nat) :
    ∀ (prev : Option Char) (pre : List Char) (c : Char) (post : List Char)
      (pos line curPos : Nat),
    (pre ++ c :: post).length ≤ fuel →
    (∀ d ∈ pre, safeChar d = true) → safeChar c = false → riskyChar c = false →
    lexAux fuel prev (pre ++ c :: post) pos line curPos =
      .error ⟨c, line + (pre.count '\n')⟩ := by
  induction fuel with
  | zero =>
    intro prev pre c post pos line curPos hlen hpre hs hr
    rw [List.length_append, List.length_cons] at hlen
    omega
  | succ f ih =>
    intro prev pre c post pos line curPos hlen hpre hs hr
    cases pre with
    | nil =>
      simp only [List.nil_append, lexAux, scanOne_bad hs hr]
      rw [if_neg (by decide), if_neg (by decide)]
      simp
    | cons p pre' =>
      have hp : safeChar p = true := hpre p (List.mem_cons_self p pre')
      rw [List.cons_append]
      rcases hsc : scanOne prev p (pre' ++ c :: post) with ⟨kind, n⟩
      have hpos := scanOne_pos hsc
      obtain ⟨hkm, hkstr, hchars⟩ := scanOne_safe hsc hp
      have hnle : n ≤ (p :: pre').length := by
        by_contra hgt
        rw [Nat.not_le] at hgt
        have hcm : c ∈ ((p :: pre') ++ c :: post).take n := mem_take_append hgt
        rw [List.cons_append] at hcm
        exact absurd (hchars c hcm) (by simp [hs])
      have htake : (p :: (pre' ++ c :: post)).take n = (p :: pre').take n := by
        rw [← List.cons_append, List.take_append_eq_append_take,
          Nat.sub_eq_zero_of_le hnle, List.take_zero, List.append_nil]
      have hdrop : (p :: (pre' ++ c :: post)).drop n = ((p :: pre').drop n) ++ c :: post := by
        rw [← List.cons_append, List.drop_append_eq_append_drop,
          Nat.sub_eq_zero_of_le hnle, List.drop_zero]
      have hlen' : ((p :: (pre' ++ c :: post)).drop n).length ≤ f := by
        rw [List.length_drop]
        simp only [List.length_cons, List.length_append] at hlen ⊢
        omega
      have hpre' : ∀ d ∈ (p :: pre').drop n, safeChar d = true :=
        fun d hd => hpre d (List.drop_subset _ _ hd)
      have hcount : (p :: pre').count '\n' =
          ((p :: pre').take n).count '\n' + ((p :: pre').drop n).count '\n' := by
        conv_lhs => rw [← List.take_append_drop n (p :: pre')]
        rw [List.count_append]
      simp only [lexAux, hsc]
      by_cases hk1 : kind = "NEWLINE"
      · rw [if_pos hk1]
        obtain ⟨hn1, hpn⟩ := scanOne_newline hsc hk1
        rw [hdrop] at hlen' ⊢
        rw [ih _ ((p :: pre').drop n) c post (pos + n) (line + 1) (pos + n) hlen'
          (fun d hd => hpre d (List.drop_subset _ _ hd)) hs hr]
        have : line + 1 + ((p :: pre').drop n).count '\n' =
            line + (p :: pre').count '\n' := by
          rw [hcount]
          have h1 : ((p :: pre').take n).count '\n' = 1 := by
            subst hn1
            subst hpn
            simp [List.take_succ_cons, List.count_cons]
          omega
        rw [this]
      · rw [if_neg hk1]
        have hcnt0 : ((p :: pre').take n).count '\n' = 0 := by
          rw [List.count_eq_zero]
          intro hmem
          have hnl := scanOne_no_nl hsc hk1 hkstr
          rw [← htake] at hmem
          exact hnl '\n' hmem rfl
        by_cases hk2 : kind = "WHITESPACE"
        · rw [if_pos hk2]
          rw [hdrop] at hlen' ⊢
          rw [ih _ ((p :: pre').drop n) c post (pos + n) line curPos hlen'
            (fun d hd => hpre d (List.drop_subset _ _ hd)) hs hr]
          have : line + ((p :: pre').drop n).count '\n' = line + (p :: pre').count '\n' := by
            rw [hcount, hcnt0]
            omega
          rw [this]
        · rw [if_neg hk2]
          rw [if_neg (by simpa using hkm)]
          rw [hdrop] at hlen' ⊢
          rw [ih _ ((p :: pre').drop n) c post (pos + n) line curPos hlen'
            (fun d hd => hpre d (List.drop_subset _ _ hd)) hs hr]
          have : line + ((p :: pre').drop n).count '\n' = line + (p :: pre').count '\n' := by
            rw [hcount, hcnt0]
            omega
          rw [this]
          rfl

/-- Invariants of a successful scan: no whitespace/newline (nor `T_Else`)
token is emitted, lines never decrease, and the emitted tokens are in strictly
increasing source-position order. -/
theorem lexAux_ok_inv (fuel : Nat) :
    ∀ (prev : Option Char) (s : List Char) (pos line curPos : Nat)
      (tps : List (Token × Nat)),
    lexAux fuel prev s pos line curPos = .ok tps → curPos ≤ pos →
    (∀ tp ∈ tps,
      (tp.1.type ≠ "WHITESPACE" ∧ tp.1.type ≠ "NEWLINE" ∧ tp.1.type ≠ "T_Else") ∧
      line ≤ tp.1.line ∧
      (tp.1.line = line → pos - curPos + 1 ≤ tp.1.start_col)) ∧
    List.Chain' lexLt (tps.map Prod.fst) := by
  induction fuel with
  | zero =>
    intro prev s pos line curPos tps h hcur
    simp only [lexAux, Except.ok.injEq] at h
    subst h
    exact ⟨by simp, by simp⟩
  | succ f ih =>
    intro prev s pos line curPos tps h hcur
    cases s with
    | nil =>
      simp only [lexAux, Except.ok.injEq] at h
      subst h
      exact ⟨by simp, by simp⟩
    | cons c cs =>
      rcases hsc : scanOne prev c cs with ⟨kind, n⟩
      have hpos := scanOne_pos hsc
      simp only [lexAux, hsc] at h
      by_cases hk1 : kind = "NEWLINE"
      · rw [if_pos hk1] at h
        obtain ⟨hall, hchain⟩ := ih _ _ _ _ _ _ h (le_refl _)
        refine ⟨?_, hchain⟩
        intro tp htp
        obtain ⟨ht, hl, _⟩ := hall tp htp
        exact ⟨ht, by omega, fun he => by omega⟩
      · rw [if_neg hk1] at h
        by_cases hk2 : kind = "WHITESPACE"
        · rw [if_pos hk2] at h
          obtain ⟨hall, hchain⟩ := ih _ _ _ _ _ _ h (by omega)
          refine ⟨?_, hchain⟩
          intro tp htp
          obtain ⟨ht, hl, hsc'⟩ := hall tp htp
          exact ⟨ht, hl, fun he => by have := hsc' he; omega⟩
        · rw [if_neg hk2] at h
          by_cases hk3 : kind = "MISMATCH"
          · rw [if_pos hk3] at h
            exact absurd h (by simp)
          · rw [if_neg hk3] at h
            cases hrec : lexAux f (((c :: cs).take n).getLast?) ((c :: cs).drop n)
                (pos + n) line curPos with
            | error e =>
              rw [hrec] at h
              exact absurd h (by simp [Except.map])
            | ok ts =>
              rw [hrec] at h
              simp only [Except.map, Except.ok.injEq] at h
              subst h
              have hcur' : curPos ≤ pos + n := by omega
              obtain ⟨hall, hchain⟩ := ih _ _ _ _ _ _ hrec hcur'
              have hne : kind ≠ "T_Else" := scanOne_ne_else hsc
              constructor
              · intro tp htp
                rcases List.mem_cons.mp htp with rfl | htp'
                · exact ⟨⟨hk2, hk1, hne⟩, le_refl _, fun _ => le_refl _⟩
                · obtain ⟨ht, hl, hsc'⟩ := hall tp htp'
                  exact ⟨ht, hl, fun he => by have := hsc' he; omega⟩
              · rw [List.map_cons]
                cases hts : ts.map Prod.fst with
                | nil => simp
                | cons t2 ts2 =>
                  rw [List.chain'_cons]
                  refine ⟨?_, by rw [← hts]; exact hchain⟩
                  have ht2 : t2 ∈ ts.map Prod.fst := by rw [hts]; exact List.mem_cons_self _ _
                  obtain ⟨tp2, htp2, htp2e⟩ := List.mem_map.mp ht2
                  obtain ⟨_, hl2, hsc2⟩ := hall tp2 htp2
                  rw [← htp2e]
                  rcases Nat.lt_or_ge line tp2.1.line with hlt | hge
                  · exact Or.inl hlt
                  · have heq : tp2.1.line = line := by omega
                    refine Or.inr ⟨heq.symm, ?_⟩
                    have := hsc2 heq
                    show pos - curPos + 1 < tp2.1.start_col
                    omega

/-- On a quote-free input, each token's recorded line is one plus the number
of newline characters before its absolute start offset. -/
theorem lexAux_ok_lines (fuel : Nat) :
    ∀ (prev : Option Char) (s : List Char) (pos line curPos : Nat)
      (tps : List (Token × Nat)),
    lexAux fuel prev s pos line curPos = .ok tps → (∀ d ∈ s, d ≠ '\"') →
    ∀ tp ∈ tps, pos ≤ tp.2 ∧
      tp.1.line = line + ((s.take (tp.2 - pos)).count '\n') := by
  induction fuel with
  | zero =>
    intro prev s pos line curPos tps h hq
    simp only [lexAux, Except.ok.injEq] at h
    subst h
    simp
  | succ f ih =>
    intro prev s pos line curPos tps h hq
    cases s with
    | nil =>
      simp only [lexAux, Except.ok.injEq] at h
      subst h
      simp
    | cons c cs =>
      rcases hsc : scanOne prev c cs with ⟨kind, n⟩
      have hpos := scanOne_pos hsc
      have hkstr : kind ≠ "T_StringConstant" := by
        intro he
        exact absurd (scanOne_string hsc he) (hq c (List.mem_cons_self c cs))
      have hq' : ∀ d ∈ (c :: cs).drop n, d ≠ '\"' :=
        fun d hd => hq d (List.drop_subset _ _ hd)
      have hsplit : ∀ (m : Nat), n ≤ m →
          ((c :: cs).take m).count '\n' =
            (((c :: cs).take n).count '\n') + ((((c :: cs).drop n).take (m - n)).count '\n') := by
        intro m hm
        conv_lhs => rw [show m = n + (m - n) by omega]
        rw [List.take_add, List.count_append]
      simp only [lexAux, hsc] at h
      by_cases hk1 : kind = "NEWLINE"
      · rw [if_pos hk1] at h
        obtain ⟨hn1, hcn⟩ := scanOne_newline hsc hk1
        intro tp htp
        obtain ⟨hple, hline⟩ := ih _ _ _ _ _ _ h hq' tp htp
        have hple' : pos ≤ tp.2 := by omega
        refine ⟨hple', ?_⟩
        rw [hline, hsplit (tp.2 - pos) (by omega)]
        have h1 : ((c :: cs).take n).count '\n' = 1 := by
          subst hn1
          subst hcn
          simp [List.take_succ_cons, List.count_cons]
        have h2 : tp.2 - (pos + n) = tp.2 - pos - n := by omega
        rw [h1, h2]
        omega
      · rw [if_neg hk1] at h
        have hcnt0 : ((c :: cs).take n).count '\n' = 0 := by
          rw [List.count_eq_zero]
          intro hmem
          exact scanOne_no_nl hsc hk1 hkstr '\n' hmem rfl
        by_cases hk2 : kind = "WHITESPACE"
        · rw [if_pos hk2] at h
          intro tp htp
          obtain ⟨hple, hline⟩ := ih _ _ _ _ _ _ h hq' tp htp
          refine ⟨by omega, ?_⟩
          rw [hline, hsplit (tp.2 - pos) (by omega), hcnt0]
          have h2 : tp.2 - (pos + n) = tp.2 - pos - n := by omega
          rw [h2]
          omega
        · rw [if_neg hk2] at h
          by_cases hk3 : kind = "MISMATCH"
          · rw [if_pos hk3] at h
            exact absurd h (by simp)
          · rw [if_neg hk3] at h
            cases hrec : lexAux f (((c :: cs).take n).getLast?) ((c :: cs).drop n)
                (pos + n) line curPos with
            | error e =>
              rw [hrec] at h
              exact absurd h (by simp [Except.map])
            | ok ts =>
              rw [hrec] at h
              simp only [Except.map, Except.ok.injEq] at h
              subst h
              intro tp htp
              rcases List.mem_cons.mp htp with rfl | htp'
              · refine ⟨le_refl _, ?_⟩
                show line = line + ((List.take (pos - pos) (c :: cs)).count '\n')
                simp
              · obtain ⟨hple, hline⟩ := ih _ _ _ _ _ _ hrec hq' tp htp'
                refine ⟨by omega, ?_⟩
                rw [hline, hsplit (tp.2 - pos) (by omega), hcnt0]
                have h2 : tp.2 - (pos + n) = tp.2 - pos - n := by omega
                rw [h2]
                omega

end Decaf

open Decaf

/-- A lemma used by several claims: the top-level loop of `Parser.parse`
skips one token that is neither `int` nor `void`, consuming it and emitting
nothing. -/
theorem parse_loop_skip (f : Nat) (toks : List Token) (pos : Nat) (acc : String)
    (t : Token) (hget : toks[pos]? = some t)
    (h1 : t.type ≠ "T_Int") (h2 : t.type ≠ "T_Void") :
    parse_loop (f + 1) toks pos acc = parse_loop f toks (pos + 1) acc := by
  simp only [parse_loop, hget, h1, h2, or_self, if_false]

/-- When a type keyword and identifier are followed by a token that is
neither `(` nor `;`, `parse_declaration_or_function` falls through returning
Python `None` with the cursor after the identifier. -/
theorem pdof_fallthrough (f : Nat) (toks : List Token) (pos : Nat)
    (t u : Token) (hget : toks[pos]? = some t)
    (ht : t.type = "T_Int" ∨ t.type = "T_Void")
    (hu : toks[pos + 2]? = some u)
    (hu1 : u.type ≠ "T_LParen") (hu2 : u.type ≠ "T_Semicolon") :
    parse_declaration_or_function (f + 1) toks pos = .ok (none, pos + 2) := by
  simp only [parse_declaration_or_function, hget, ht, if_true, hu, hu1, hu2, if_false]

/-- C1, counterexample.  The claim says the top-level parse loop completes
without raising on every token sequence, silently falling through when a type
keyword plus identifier is followed by neither `(` nor `;`.  In fact the
fall-through returns Python `None`, and `program += None` raises `TypeError`:
both on an explicit token sequence and through the full pipeline on source
`"int x x"`. -/
theorem C1_counterexample :
    parse 99 [⟨"T_Int", "int", 1, 1, 3⟩, ⟨"T_Identifier", "x", 1, 5, 5⟩,
      ⟨"T_Identifier", "y", 1, 7, 7⟩] = .error .typeError ∧
    compileProgram "int x x" = .error (.par .typeError) := by
  exact ⟨rfl, rfl⟩

/-- C1, amended: any top-level token that is not `int`/`void` is skipped with
one token consumed and no node emitted; but when a type keyword plus
identifier is followed by neither `(` nor `;`, the parse loop raises a
`TypeError` (from concatenating the absent node) instead of silently
continuing. -/
theorem C1_toplevel_loop :
    (∀ (f : Nat) (toks : List Token) (pos : Nat) (acc : String) (t : Token),
      toks[pos]? = some t → t.type ≠ "T_Int" → t.type ≠ "T_Void" →
      parse_loop (f + 1) toks pos acc = parse_loop f toks (pos + 1) acc) ∧
    (∀ (f : Nat) (toks : List Token) (pos : Nat) (acc : String) (t u : Token),
      toks[pos]? = some t → (t.type = "T_Int" ∨ t.type = "T_Void") →
      toks[pos + 2]? = some u → u.type ≠ "T_LParen" → u.type ≠ "T_Semicolon" →
      parse_loop (f + 2) toks pos acc = .error .typeError) := by
  constructor
  · exact parse_loop_skip
  · intro f toks pos acc t u hget ht hu hu1 hu2
    simp only [parse_loop, hget, ht, if_true]
    rw [pdof_fallthrough f toks pos t u hget ht hu hu1 hu2]
    rfl

/-- C1, witness for the amended theorem: skipping a lone semicolon token, and
the `TypeError` on the token sequence of `"int x y"`. -/
theorem C1_toplevel_loop_witness :
    parse_loop 2 [⟨"T_Semicolon", ";", 1, 1, 1⟩] 0 "Program:" =
      parse_loop 1 [⟨"T_Semicolon", ";", 1, 1, 1⟩] 1 "Program:" ∧
    parse_loop 9 [⟨"T_Int", "int", 1, 1, 3⟩, ⟨"T_Identifier", "x", 1, 5, 5⟩,
      ⟨"T_Identifier", "y", 1, 7, 7⟩] 0 "Program:" = .error .typeError :=
  ⟨C1_toplevel_loop.1 1 _ 0 _ _ rfl (by decide) (by decide),
   C1_toplevel_loop.2 7 _ 0 _ _ _ rfl (by decide) rfl (by decide) (by decide)⟩

/-- C4: tokenizing `"<="` yields exactly one token, of kind `T_LessEqual`
with text `"<="` (the two-character comparison operators are tried before
their single-character prefixes), not a `<` token followed by a `=` token. -/
theorem C4_less_equal_single_token :
    tokenizeStr "<=" = .ok [⟨"T_LessEqual", "<=", 1, 1, 2⟩] := rfl

/-- C5: parsing the prefix-form token sequence `+ a 1` (operator first)
yields an `ArithmeticExpr: +` node with left child `FieldAccess: a` and right
child `FieldAccess: 1`. -/
theorem C5_prefix_arithmetic :
    tokenizeStr "+ a 1" =
      .ok [⟨"T_Add", "+", 1, 1, 1⟩, ⟨"T_Identifier", "a", 1, 3, 3⟩,
        ⟨"T_IntConstant", "1", 1, 5, 5⟩] ∧
    parse_expression 9 [⟨"T_Add", "+", 1, 1, 1⟩, ⟨"T_Identifier", "a", 1, 3, 3⟩,
        ⟨"T_IntConstant", "1", 1, 5, 5⟩] 0 =
      .ok (some ("ArithmeticExpr: +\n            FieldAccess: a" ++
        "\n            FieldAccess: 1"), 3) :=
  ⟨rfl, rfl⟩

/-- C6: tokenizing then parsing `"void f(int a, bool b) { return a; }"`
yields a `Program` with a `Function: f` node carrying the two ordered
`Parameter` children (`int a` then `bool b`, rendered with the lower-cased
type tag) and one `Return` statement wrapping `FieldAccess: a`. -/
theorem C6_function_with_parameters :
    compileProgram "void f(int a, bool b) \x7b return a; \x7d" =
      .ok ("Program:\n    Function: f\n        Parameter: t_t_int a" ++
        "\n        Parameter: t_t_bool b\n        Return:\n            FieldAccess: a") :=
  rfl

/-- C10: when the current token matches none of `parse_expression`'s cases,
it returns the absent value (`None`) without consuming the token; the
enclosing `Return` then renders the literal text `None`, as on source
`"void f(){return;}"`. -/
theorem C10_absent_expression :
    (∀ (f : Nat) (toks : List Token) (pos : Nat) (t : Token),
      toks[pos]? = some t → t.type ∉ exprDispatchTypes →
      parse_expression (f + 1) toks pos = .ok (none, pos)) ∧
    compileProgram "void f()\x7breturn;\x7d" =
      .ok "Program:\n    Function: f\n        Return:\n            None" := by
  refine ⟨?_, rfl⟩
  intro f toks pos t hget hmem
  simp only [exprDispatchTypes, List.mem_cons, List.not_mem_nil, or_false, not_or] at hmem
  obtain ⟨h1, h2, h3, h4, h5, h6, h7, h8, h9⟩ := hmem
  simp only [parse_expression, hget, h1, h2, h3, h4, h5, h6, h7, h8, h9, or_self, if_false]

/-- C10, witness: a semicolon right after `return` yields the absent
expression with the cursor unmoved. -/
theorem C10_absent_expression_witness :
    parse_expression 1 [⟨"T_Semicolon", ";", 1, 1, 1⟩] 0 = .ok (none, 0) :=
  C10_absent_expression.1 0 _ 0 _ rfl (by decide)

/-- C2, counterexample.  The claim quantifies over inputs made only of
characters matched by the defined lexical patterns.  `&` is such a character
(it is matched inside the `&&` pattern), yet the one-character input `"&"`
raises a lexical error; and a string constant containing a space makes the
concatenated token texts differ from the input minus whitespace. -/
theorem C2_counterexample :
    tokenizeStr "&" = .error ⟨'&', 1⟩ ∧
    tokenizeStr "&&" = .ok [⟨"T_And", "&&", 1, 1, 2⟩] ∧
    tokenizeStr "\"a b\"" = .ok [⟨"T_StringConstant", "\"a b\"", 1, 1, 5⟩] ∧
    ([⟨"T_StringConstant", "\"a b\"", 1, 1, 5⟩].map
        (fun (t : Token) => t.value.data)).flatten ≠
      "\"a b\"".data.filter (fun d => !(isHWS d || d == '\n')) := by
  exact ⟨rfl, rfl, rfl, by decide⟩

/-- C2, amended: for every input over the restricted alphabet of letters,
digits, underscore, the single-character operators/punctuation, space, tab and
newline (no `&`, `|` or `"`), `tokenize` succeeds and the concatenated token
texts reconstruct the input with whitespace and newlines removed. -/
theorem C2_safe_tokenize (s : List Char) (hsafe : ∀ d ∈ s, safeChar d = true) :
    ∃ ts, tokenize s = .ok ts ∧
      (ts.map (fun t => t.value.data)).flatten =
        s.filter (fun d => !(isHWS d || d == '\n')) := by
  obtain ⟨tps, h, hj⟩ := lexAux_safe s.length none s 0 1 0 (le_refl _) hsafe
  refine ⟨tps.map Prod.fst, ?_, ?_⟩
  · simp only [tokenize, tokenizeFull, h]
    rfl
  · rw [List.map_map]
    exact hj

/-- C2, witness at the concrete input `"int x;"`. -/
theorem C2_safe_tokenize_witness :
    ∃ ts, tokenize "int x;".data = .ok ts ∧
      (ts.map (fun t => t.value.data)).flatten =
        "int x;".data.filter (fun d => !(isHWS d || d == '\n')) :=
  C2_safe_tokenize "int x;".data (by decide)

/-- C3, counterexample.  `@` standing alone matches no pattern (it scans as
`MISMATCH`), yet the input `"@"` containing it tokenizes successfully as a
string constant, so an input containing a pattern-less character need not
raise. -/
theorem C3_counterexample :
    tokenizeStr "\"@\"" = .ok [⟨"T_StringConstant", "\"@\"", 1, 1, 3⟩] ∧
    scanOne none '@' [] = ("MISMATCH", 1) := ⟨rfl, rfl⟩

/-- C3, amended: on an input whose characters before the first pattern-less
ASCII character are all from the restricted alphabet (no `&`, `|`, `"`),
`tokenize` raises a lexical error naming that character and carrying one plus
the number of newlines before it, and returns no tokens.  The ASCII
restriction matters: the source compiles its regex without `re.ASCII`, so
`\w`/`\d`/`\b` are Unicode-aware and a non-ASCII word character such as `é`
scans as part of an identifier rather than as a `MISMATCH`; within ASCII the
word/digit classes are exactly `[a-zA-Z0-9_]`/`[0-9]` and the embedding
agrees with the program character for character. -/
theorem C3_first_bad_char (pre : List Char) (c : Char) (post : List Char)
    (hpre : ∀ d ∈ pre, safeChar d = true) (_hascii : c.toNat < 128)
    (hs : safeChar c = false) (hr : riskyChar c = false) :
    tokenize (pre ++ c :: post) = .error ⟨c, 1 + pre.count '\n'⟩ := by
  unfold tokenize tokenizeFull
  rw [lexAux_bad _ none pre c post 0 1 0 (le_refl _) hpre hs hr]
  rfl

/-- C3, witness: `"a\n@"` fails at `@` on line 2. -/
theorem C3_first_bad_char_witness :
    tokenize (['a', '\n'] ++ '@' :: []) = .error ⟨'@', 2⟩ :=
  C3_first_bad_char ['a', '\n'] '@' [] (by decide) (by decide) (by decide) (by decide)

/-- C7, counterexample.  A string constant spanning a newline does not
increment the line counter: on input `"\n"x` the token for `x` starts at
offset 3 and records line 1, although one newline precedes it. -/
theorem C7_counterexample :
    tokenizeFull "\"\n\"x".data =
      .ok [(⟨"T_StringConstant", "\"\n\"", 1, 1, 3⟩, 0),
           (⟨"T_Identifier", "x", 1, 4, 4⟩, 3)] ∧
    (1 : Nat) ≠ 1 + (("\"\n\"x".data.take 3).count '\n') := ⟨rfl, by decide⟩

/-- C7, amended: every successful scan yields tokens in strictly increasing
source-position order (lexicographically by line then start column) with no
whitespace or newline tokens; and provided the input contains no double quote
(hence no string constants), each token's line field is one plus the number of
newlines before its start offset. -/
theorem C7_token_invariants (s : List Char) (tps : List (Token × Nat))
    (h : tokenizeFull s = .ok tps) :
    tokenize s = .ok (tps.map Prod.fst) ∧
    List.Chain' lexLt (tps.map Prod.fst) ∧
    (∀ tp ∈ tps, tp.1.type ≠ "WHITESPACE" ∧ tp.1.type ≠ "NEWLINE") ∧
    ((∀ d ∈ s, d ≠ '\"') →
      ∀ tp ∈ tps, tp.1.line = 1 + ((s.take tp.2).count '\n')) := by
  obtain ⟨hall, hchain⟩ := lexAux_ok_inv s.length none s 0 1 0 tps h (le_refl _)
  refine ⟨by simp only [tokenize, h]; rfl, hchain, ?_, ?_⟩
  · intro tp htp
    exact ⟨(hall tp htp).1.1, (hall tp htp).1.2.1⟩
  · intro hq tp htp
    have hl := (lexAux_ok_lines s.length none s 0 1 0 tps h hq tp htp).2
    simpa using hl

/-- C7, witness at the concrete input `"a\nb"`. -/
theorem C7_token_invariants_witness :
    List.Chain' lexLt
      (([(⟨"T_Identifier", "a", 1, 1, 1⟩, 0),
        (⟨"T_Identifier", "b", 2, 1, 1⟩, 2)] : List (Token × Nat)).map Prod.fst) ∧
    (∀ tp ∈ ([(⟨"T_Identifier", "a", 1, 1, 1⟩, 0),
        (⟨"T_Identifier", "b", 2, 1, 1⟩, 2)] : List (Token × Nat)),
      tp.1.line = 1 + (("a\nb".data.take tp.2).count '\n')) :=
  ⟨(C7_token_invariants "a\nb".data _ rfl).2.1,
   (C7_token_invariants "a\nb".data _ rfl).2.2.2 (by decide)⟩

/-- C8: the scanner's fixed kind set contains no `T_Else` (the word `else`
scans as an identifier), so the else branch of `parse_if_else` is never taken:
on any token list without a `T_Else` token a successful `parse_if_else`
renders an empty else block. -/
theorem C8_no_else :
    (∀ (s : List Char) (ts : List Token), tokenize s = .ok ts →
      ∀ t ∈ ts, t.type ≠ "T_Else") ∧
    (∀ (f : Nat) (toks : List Token) (pos : Nat) (r : String) (p : Nat),
      (∀ t ∈ toks, t.type ≠ "T_Else") →
      parse_if_else (f + 1) toks pos = .ok (r, p) →
      ∃ cond block, r = renderIfElse cond block "") := by
  constructor
  · intro s ts h t ht
    unfold tokenize at h
    cases hfull : tokenizeFull s with
    | error e =>
      rw [hfull] at h
      exact absurd h (by simp [Except.map])
    | ok tps =>
      rw [hfull] at h
      simp only [Except.map, Except.ok.injEq] at h
      subst h
      obtain ⟨tp, htp, rfl⟩ := List.mem_map.mp ht
      exact ((lexAux_ok_inv s.length none s 0 1 0 tps hfull (le_refl _)).1 tp htp).1.2.2
  · intro f toks pos r p hno hok
    unfold parse_if_else at hok
    cases h1 : parse_expression f toks (pos + 1) with
    | error e =>
      rw [h1] at hok
      simp only [Bind.bind, Except.bind] at hok
      exact Except.noConfusion hok
    | ok v1 =>
      obtain ⟨cond, p1⟩ := v1
      rw [h1] at hok
      simp only [Bind.bind, Except.bind] at hok
      cases h2 : parse_block f toks p1 with
      | error e =>
        rw [h2] at hok
        simp only [Bind.bind, Except.bind] at hok
        exact Except.noConfusion hok
      | ok v2 =>
        obtain ⟨block, p2⟩ := v2
        rw [h2] at hok
        simp only [Bind.bind, Except.bind] at hok
        cases hct : toks[p2]? with
        | none =>
          rw [hct] at hok
          have hok2 : Except.ok (renderIfElse (pyOpt cond) block "", p2) =
              (Except.ok (r, p) : Except PErr (String × Nat)) := hok
          simp only [Except.ok.injEq, Prod.mk.injEq] at hok2
          exact ⟨pyOpt cond, block, hok2.1.symm⟩
        | some t =>
          rw [hct] at hok
          have hne := hno t (List.getElem?_mem hct)
          have hok2 : (if t.type = "T_Else" then
              (do
                let x ← parse_block f toks (p2 + 1)
                match x with
                | (elseBlock, p3) =>
                  Except.ok (renderIfElse (pyOpt cond) block elseBlock, p3))
            else Except.ok (renderIfElse (pyOpt cond) block "", p2)) =
              (Except.ok (r, p) : Except PErr (String × Nat)) := hok
          rw [if_neg hne] at hok2
          simp only [Except.ok.injEq, Prod.mk.injEq] at hok2
          exact ⟨pyOpt cond, block, hok2.1.symm⟩

/-- C8, witness: the scanned tokens of `"x"` carry no `T_Else`, and parsing
`if a { }` yields an `IfElse` whose else block renders empty. -/
theorem C8_no_else_witness :
    (∀ t ∈ [(⟨"T_Identifier", "x", 1, 1, 1⟩ : Token)], Token.type t ≠ "T_Else") ∧
    (∃ cond block,
      ("\n        IfElse:\n            FieldAccess: a" ++
        "\n            Block:\n\n            Block:\n") = renderIfElse cond block "") :=
  ⟨C8_no_else.1 "x".data _ rfl,
   C8_no_else.2 19 [⟨"T_If", "if", 1, 1, 2⟩, ⟨"T_Identifier", "a", 1, 4, 4⟩,
     ⟨"T_LBrace", "\x7b", 1, 6, 6⟩, ⟨"T_RBrace", "\x7d", 1, 8, 8⟩] 0 _ 4 (by decide) rfl⟩

/-- C9, counterexample.  A carriage return inside a string constant is
consumed by the string pattern, so an input containing `\r` need not raise. -/
theorem C9_counterexample :
    tokenizeStr "\"\r\"" = .ok [⟨"T_StringConstant", "\"\r\"", 1, 1, 3⟩] := rfl

/-- C9, amended: on an input whose characters before the first `\r` are all
from the restricted alphabet (no `&`, `|`, `"`), `tokenize` raises the lexical
error at that `\r`, with the line count of the preceding newlines. -/
theorem C9_carriage_return (pre post : List Char)
    (hpre : ∀ d ∈ pre, safeChar d = true) :
    tokenize (pre ++ '\r' :: post) = .error ⟨'\r', 1 + pre.count '\n'⟩ := by
  unfold tokenize tokenizeFull
  rw [lexAux_bad _ none pre '\r' post 0 1 0 (le_refl _) hpre (by decide) (by decide)]
  rfl

/-- C9, witness: the one-character input `\r` fails at line 1. -/
theorem C9_carriage_return_witness :
    tokenize ([] ++ '\r' :: []) = .error ⟨'\r', 1⟩ :=
  C9_carriage_return [] [] (by decide)
